import Mathlib

/-!
Verification of the Speed_Test_Hackathon repository
(`Speed_Test_Client.py`, `Speed_Test_Server.py`).

The Python sources are shallowly embedded below.  Byte buffers are
`List Nat` (each entry one byte value); big-endian multi-byte fields are
decoded with `bytesToNat`, mirroring `struct.unpack('!...')`.  The
`struct` format letter `b` is a signed byte, but every comparison in the
sources tests it against a small positive constant (2, 3 or 4), for which
the signed and unsigned readings agree, so the unsigned decoding is
faithful at every compared value.  Random payload contents are modelled
by their lengths, which is all the properties below depend on.
Wall-clock time is modelled by `ℚ`.
-/

namespace SpeedTest

/-- Constant `MAGIC_COOKIE = 0xabcddcba` (both sources). -/
def MAGIC_COOKIE : Nat := 0xabcddcba

/-- Constant `OFFER_MSG_TYPE = 0x2`. -/
def OFFER_MSG_TYPE : Nat := 0x2

/-- Constant `REQUEST_MSG_TYPE = 0x3`. -/
def REQUEST_MSG_TYPE : Nat := 0x3

/-- Constant `PAYLOAD_MSG_TYPE = 0x4`. -/
def PAYLOAD_MSG_TYPE : Nat := 0x4

/-- Big-endian value of a byte list, as in `struct.unpack('!...')`. -/
def bytesToNat (l : List Nat) : Nat := l.foldl (fun acc b => acc * 256 + b) 0

/-- Client `_wait_for_offer`, decoding part (`Speed_Test_Client.py:98-102`):
`if len(data) >= 9`, `struct.unpack('!IbHH', data[:9])`, then the magic
cookie and offer-type check; on success the embedded `(udp_port, tcp_port)`
pair is extracted. -/
def decodeOffer (data : List Nat) : Option (Nat × Nat) :=
  if data.length ≥ 9 then
    let magic := bytesToNat (data.take 4)
    let msg_type := bytesToNat ((data.drop 4).take 1)
    let udp_port := bytesToNat ((data.drop 5).take 2)
    let tcp_port := bytesToNat ((data.drop 7).take 2)
    if magic = MAGIC_COOKIE ∧ msg_type = OFFER_MSG_TYPE then
      some (udp_port, tcp_port)
    else none
  else none

/-- Client `_udp_transfer`, header decoding part
(`Speed_Test_Client.py:195-204`): `if len(data) < 21: continue`,
`struct.unpack('!IbQQ', data[:21])`, magic/type check, `payload = data[21:]`.
Returns `(total_segs, seg_num, payload)` on success. -/
def decodePayload (data : List Nat) : Option (Nat × Nat × List Nat) :=
  if data.length < 21 then none
  else
    let magic := bytesToNat (data.take 4)
    let msg_type := bytesToNat ((data.drop 4).take 1)
    if magic = MAGIC_COOKIE ∧ msg_type = PAYLOAD_MSG_TYPE then
      some (bytesToNat ((data.drop 5).take 8), bytesToNat ((data.drop 13).take 8),
            data.drop 21)
    else none

/-- Server `_handle_udp_requests`, decoding part
(`Speed_Test_Server.py:148-155`): `if len(data) >= 13`,
`struct.unpack('!IbQ', data[:13])`, magic/request-type check; on success the
embedded `file_size` spawns a handler, otherwise the datagram is dropped. -/
def decodeRequest (data : List Nat) : Option Nat :=
  if data.length ≥ 13 then
    let magic := bytesToNat (data.take 4)
    let msg_type := bytesToNat ((data.drop 4).take 1)
    if magic = MAGIC_COOKIE ∧ msg_type = REQUEST_MSG_TYPE then
      some (bytesToNat ((data.drop 5).take 8))
    else none
  else none

/-- One payload packet sent by the server's UDP handler; the pseudorandom
payload bytes are modelled by their length. -/
structure UdpPacket where
  total_segments : Nat
  segment_num : Nat
  payload_len : Nat
  deriving DecidableEq, Repr

/-- Server `_handle_udp_client` (`Speed_Test_Server.py:160-182`):
`segment_size = 1024`, `total_segments = (file_size + segment_size - 1) //
segment_size`, and for each `segment_num in range(total_segments)` a packet
with payload length `min(segment_size, file_size - segment_num *
segment_size)`.  (For every index in range the remaining count is positive,
so the truncated `Nat` subtraction agrees with Python's.) -/
def handle_udp_client (file_size : Nat) : List UdpPacket :=
  let segment_size := 1024
  let total_segments := (file_size + segment_size - 1) / segment_size
  (List.range total_segments).map (fun segment_num =>
    { total_segments := total_segments
      segment_num := segment_num
      payload_len := min segment_size (file_size - segment_num * segment_size) })

/-! ### Server TCP handler (`_handle_tcp_client`) -/

/-- Byte values Python's `str.strip()` removes at either end of an ASCII
request line (the whitespace characters `\t \n \v \f \r \x1c-\x1f` and
space). -/
def isPySpace (c : Nat) : Bool :=
  c = 9 ∨ c = 10 ∨ c = 11 ∨ c = 12 ∨ c = 13 ∨ c = 28 ∨ c = 29 ∨ c = 30 ∨ c = 31 ∨ c = 32

/-- ASCII decimal digit. -/
def isDigitByte (c : Nat) : Bool := 48 ≤ c ∧ c ≤ 57

/-- Remaining digits of a Python integer literal, allowing a single
underscore between two digits (as `int()` does); accumulates the value. -/
def parseDigitsAux (acc : Nat) : List Nat → Option Nat
  | [] => some acc
  | c :: rest =>
    if isDigitByte c then parseDigitsAux (acc * 10 + (c - 48)) rest
    else if c = 95 then
      match rest with
      | c2 :: rest2 =>
        if isDigitByte c2 then parseDigitsAux (acc * 10 + (c2 - 48)) rest2 else none
      | [] => none
    else none

/-- A nonempty all-digit (with optional single interior underscores) run,
as accepted by Python `int()` after sign handling. -/
def parsePyDigits : List Nat → Option Nat
  | [] => none
  | c :: rest => if isDigitByte c then parseDigitsAux (c - 48) rest else none

/-- Python `str.strip()` on a byte list. -/
def stripBytes (data : List Nat) : List Nat :=
  ((data.dropWhile isPySpace).reverse.dropWhile isPySpace).reverse

/-- Python `int(data.decode().strip())` (`Speed_Test_Server.py:112`), modelled for
ASCII request lines (the only kind the client produces): strip surrounding
whitespace, then an optional sign followed by a nonempty digit run; any
other shape raises `ValueError`, modelled as `none`. -/
def parsePyInt (data : List Nat) : Option Int :=
  match stripBytes data with
  | [] => none
  | c :: rest =>
    if c = 43 then (parsePyDigits rest).map (fun n => (n : Int))
    else if c = 45 then (parsePyDigits rest).map (fun n => -(n : Int))
    else (parsePyDigits (c :: rest)).map (fun n => (n : Int))

/-- The `while sent < file_size` send loop of `_handle_tcp_client`
(`Speed_Test_Server.py:117-125`), tracked by the remaining byte count:
each iteration sends `chunk = min(chunk_size, remaining)` pseudorandom
bytes (modelled by the chunk length) with `chunk_size = 1024`. -/
def send_chunks (remaining : Nat) : List Nat :=
  if remaining = 0 then []
  else min 1024 remaining :: send_chunks (remaining - min 1024 remaining)
  termination_by remaining
  decreasing_by omega

/-- Result of one server-side TCP connection: the sizes of the payload
writes issued, and whether the socket was closed. -/
structure TcpHandlerResult where
  sent : List Nat
  closed : Bool
  deriving DecidableEq, Repr

/-- Server `_handle_tcp_client` (`Speed_Test_Server.py:103-130`), given the
bytes returned by the single `client.recv(1024)`: an empty read raises
`ConnectionError`, a non-integer line raises `ValueError` from `int()`, a
parsed `file_size <= 0` raises `ValueError`; every exception is caught in
the handler itself, and the `finally` block closes the socket on every
path.  On a valid positive size the send loop runs. -/
def handle_tcp_client (data : List Nat) : TcpHandlerResult :=
  if data = [] then { sent := [], closed := true }
  else
    match parsePyInt data with
    | none => { sent := [], closed := true }
    | some file_size =>
      if file_size ≤ 0 then { sent := [], closed := true }
      else { sent := send_chunks file_size.toNat, closed := true }

/-- Server `_handle_tcp_connections` accept loop (`Speed_Test_Server.py:93-101`):
every accepted connection is dispatched to its own `_handle_tcp_client`;
a failure inside one handler is caught there and never reaches the loop. -/
def handle_tcp_connections (conns : List (List Nat)) : List TcpHandlerResult :=
  conns.map handle_tcp_client

/-! ### Client TCP transfer (`_tcp_transfer`) -/

/-- The client receive loop (`Speed_Test_Client.py:149-153`):
`while bytes_received < file_size`, `chunk = sock.recv(1024)`,
`if not chunk: break`.  `stream` is the sequence of chunk lengths the
peer delivers; a `0` entry models `recv` returning `b''` (peer closed),
and the end of the list likewise models the peer closing. -/
def tcpRecvLoop (file_size : Nat) (bytes_received : Nat) : List Nat → Nat
  | [] => bytes_received
  | c :: rest =>
    if bytes_received < file_size then
      if c = 0 then bytes_received
      else tcpRecvLoop file_size (bytes_received + c) rest
    else bytes_received

/-- Client `_tcp_transfer`, measurement part (`Speed_Test_Client.py:144-160`):
runs the receive loop and computes `speed = (file_size * 8) / duration` in
bits per second.  Returns `(bytes_received, speed)`. -/
def tcp_transfer (file_size : Nat) (stream : List Nat) (duration : ℚ) : Nat × ℚ :=
  (tcpRecvLoop file_size 0 stream, (file_size * 8 : ℚ) / duration)

/-! ### Client offer listener (`_wait_for_offer`) -/

/-- One outcome of `udp_socket.recvfrom(1024)` under the 10-second socket
timeout: either a datagram from `addr`, or a `socket.timeout` (10 seconds
elapsed with nothing received). -/
inductive OfferEvent where
  | datagram (addr : Nat) (data : List Nat)
  | timeout
  deriving DecidableEq, Repr

/-- What a run of the listener has produced so far. -/
inductive OfferOutcome where
  | noOffer
  | offer (addr : Nat) (udp_port : Nat) (tcp_port : Nat)
  deriving DecidableEq, Repr

/-- Client `_wait_for_offer` (`Speed_Test_Client.py:90-105`) over a finite
trace of receive outcomes: a datagram decoding as a valid Offer returns the
sender address and the two embedded ports; any other datagram is dropped
and the loop continues; a `socket.timeout` is caught by the
`except Exception` handler, which prints an error and continues the
`while True` loop.  `none` means the trace ended with the listener still
waiting. -/
def wait_for_offer : List OfferEvent → Option OfferOutcome
  | [] => none
  | OfferEvent.timeout :: rest => wait_for_offer rest
  | OfferEvent.datagram addr data :: rest =>
    match decodeOffer data with
    | some (udp_port, tcp_port) => some (OfferOutcome.offer addr udp_port tcp_port)
    | none => wait_for_offer rest

/-- Modelled from the spec (§4.3): the claimed listener behavior, in which
a 10-second timeout with no valid Offer "signals a no-offer failure to the
caller" instead of continuing to wait.  Identical to `wait_for_offer`
except at a timeout event. -/
def wait_for_offer_claimed : List OfferEvent → Option OfferOutcome
  | [] => none
  | OfferEvent.timeout :: _ => some OfferOutcome.noOffer
  | OfferEvent.datagram addr data :: rest =>
    match decodeOffer data with
    | some (udp_port, tcp_port) => some (OfferOutcome.offer addr udp_port tcp_port)
    | none => wait_for_offer_claimed rest

/-! ### Client UDP transfer (`_udp_transfer`) -/

/-- The mutable state of the `_udp_transfer` receive loop
(`Speed_Test_Client.py:181-183`): `bytes_received`, the set
`segments_received` of seen sequence numbers, and `total_segments`
(`None` until the first valid segment). -/
structure UdpState where
  bytes_received : Nat
  segments_received : Finset Nat
  total_segments : Option Nat
  deriving DecidableEq

/-- Initial state (`bytes_received = 0`, empty set, `total_segments = None`). -/
def initUdpState : UdpState := ⟨0, ∅, none⟩

/-- Processing of one received datagram, `Speed_Test_Client.py:195-210`:
too-short or non-payload datagrams fall through (`continue`); otherwise
`total_segments` is learned from the first valid segment, and a sequence
number not yet in `segments_received` is added and its payload length
counted, while a duplicate changes nothing. -/
def processDatagram (st : UdpState) (data : List Nat) : UdpState :=
  match decodePayload data with
  | none => st
  | some (total_segs, seg_num, payload) =>
    let st1 :=
      if st.total_segments = none then
        { st with total_segments := some total_segs }
      else st
    if seg_num ∈ st1.segments_received then st1
    else
      { st1 with
        segments_received := insert seg_num st1.segments_received
        bytes_received := st1.bytes_received + payload.length }

/-- The whole receive phase over the sequence of datagrams delivered,
ignoring time (time is handled by `udpLoop` below). -/
def runUdp (datagrams : List (List Nat)) : UdpState :=
  datagrams.foldl processDatagram initUdpState

/-- Line `success_rate = len(segments_received) / total_segments * 100 if
total_segments else 0` (`Speed_Test_Client.py:217`).  Python's truthiness
test is false both for `None` and for `0`, so the division is skipped in
both of those cases. -/
def success_rate (st : UdpState) : ℚ :=
  match st.total_segments with
  | none => 0
  | some t => if t = 0 then 0 else (st.segments_received.card : ℚ) / t * 100

/-- One outcome of `sock.recvfrom(2048)` under the 1-second socket timeout
(`Speed_Test_Client.py:190-193, 212-213`): either a datagram arriving
`delay` seconds after the call started, or a `socket.timeout` raised after
`elapsed` seconds of silence. -/
inductive RecvOutcome where
  | got (delay : ℚ) (data : List Nat)
  | timedOut (elapsed : ℚ)
  deriving DecidableEq

/-- Timed state of the receive loop: the current wall-clock reading and
`last_packet_time`, together with the transfer counters. -/
structure UdpLoopState where
  now : ℚ
  last_packet_time : ℚ
  st : UdpState
  deriving DecidableEq

/-- The `while True` receive loop (`Speed_Test_Client.py:186-213`): each
iteration first checks `time.time() - last_packet_time > 1.0` and breaks;
otherwise it performs one receive.  A datagram (of any content) sets
`last_packet_time` to its arrival instant and is processed; a
`socket.timeout` only advances the clock (`continue`).  Returns the state
at loop exit and the receive outcomes that were never reached. -/
def udpLoop : UdpLoopState → List RecvOutcome → UdpLoopState × List RecvOutcome
  | s, [] => (s, [])
  | s, o :: rest =>
    if s.now - s.last_packet_time > 1 then (s, o :: rest)
    else
      match o with
      | RecvOutcome.got delay data =>
        udpLoop ⟨s.now + delay, s.now + delay, processDatagram s.st data⟩ rest
      | RecvOutcome.timedOut elapsed =>
        udpLoop ⟨s.now + elapsed, s.last_packet_time, s.st⟩ rest

/-- Loop state at the instant the request was sent (`start_time =
time.time()`, `last_packet_time = time.time()`), taking that instant as
time zero. -/
def initUdpLoopState : UdpLoopState := ⟨0, 0, initUdpState⟩

/-! ### Client orchestrator (`_run_speed_test`) -/

/-- Kind of one transfer task. -/
inductive TaskKind where
  | tcp
  | udp
  deriving DecidableEq, Repr

/-- One `threading.Thread` started by `_run_speed_test`, identified by its
target kind and its 1-based `transfer_num` argument. -/
structure TransferTask where
  kind : TaskKind
  index : Nat
  deriving DecidableEq, Repr

/-- Client `_run_speed_test`, thread-creation part
(`Speed_Test_Client.py:109-121`): `for i in range(tcp_count)` starts a
`_tcp_transfer` thread with `transfer_num = i + 1` and appends it to
`threads`; then `for i in range(udp_count)` does the same with
`_udp_transfer`. -/
def run_speed_test_threads (tcp_count udp_count : Nat) : List TransferTask :=
  ((List.range tcp_count).map (fun i => ⟨TaskKind.tcp, i + 1⟩)) ++
    ((List.range udp_count).map (fun i => ⟨TaskKind.udp, i + 1⟩))

/-- Client `_run_speed_test`, join part (`Speed_Test_Client.py:124-125`):
`for thread in threads: thread.join()` — the list of threads waited on is
exactly the list of threads started, in order, and the join of each one
is unconditional (independent of the task's success or failure). -/
def run_speed_test_joined (tcp_count udp_count : Nat) : List TransferTask :=
  (run_speed_test_threads tcp_count udp_count).foldl (fun acc t => acc ++ [t]) []

/-- Server `_handle_udp_requests` receive loop (`Speed_Test_Server.py:132-158`)
over the datagrams received: a datagram decoding as a valid Request spawns
one `_handle_udp_client` thread with the embedded `file_size` (modelled by
the list of spawned file sizes, in order); any other datagram is reported
and dropped, and the loop continues with the next datagram. -/
def handle_udp_requests (datagrams : List (List Nat)) : List Nat :=
  datagrams.filterMap decodeRequest

/-- Total time spent by the datagram-bearing receive outcomes of a trace. -/
def gotDelays : List RecvOutcome → ℚ
  | [] => 0
  | RecvOutcome.got delay _ :: rest => delay + gotDelays rest
  | RecvOutcome.timedOut _ :: rest => gotDelays rest

/-- The datagrams carried by a trace of receive outcomes, in order. -/
def gotDatas : List RecvOutcome → List (List Nat)
  | [] => []
  | RecvOutcome.got _ data :: rest => data :: gotDatas rest
  | RecvOutcome.timedOut _ :: rest => gotDatas rest

/-! ### Helper lemmas -/

/-- The payload lengths produced by the UDP segment loop sum to the
requested file size. -/
theorem sum_range_min_segments (fs : Nat) :
    ((List.range ((fs + 1023) / 1024)).map (fun i => min 1024 (fs - i * 1024))).sum = fs := by
  induction fs using Nat.strong_induction_on with
  | _ fs ih =>
    rcases Nat.lt_or_ge fs 1025 with hsmall | hbig
    · rcases Nat.eq_zero_or_pos fs with h0 | h0
      · subst h0; simp
      · have ht : (fs + 1023) / 1024 = 1 := by omega
        rw [ht]
        simp [List.range_succ]
        omega
    · have ht : (fs + 1023) / 1024 = ((fs - 1024) + 1023) / 1024 + 1 := by omega
      rw [ht, List.range_succ_eq_map, List.map_cons, List.sum_cons, List.map_map]
      have hfun : ((List.range (((fs - 1024) + 1023) / 1024)).map
            ((fun i => min 1024 (fs - i * 1024)) ∘ Nat.succ))
          = ((List.range (((fs - 1024) + 1023) / 1024)).map
            (fun i => min 1024 ((fs - 1024) - i * 1024))) := by
        apply List.map_congr_left
        intro i _
        simp only [Function.comp_apply]
        omega
      rw [hfun, ih (fs - 1024) (by omega)]
      omega

/-! ### Claim theorems -/

/-- C3: for every `fileSize ≥ 0` with segment size 1024 the server's UDP
handler sends exactly `⌈fileSize/1024⌉` segments (the length both equals
the `(fileSize + 1023) / 1024` formula and is the least `m` with
`fileSize ≤ 1024 * m`), the payload lengths sum to `fileSize` exactly,
every segment but the last carries exactly 1024 bytes, the last carries
`fileSize − (totalSegments − 1) * 1024`, and `fileSize = 0` sends zero
segments. -/
theorem C3_udp_segmentation (file_size : Nat) :
    (handle_udp_client file_size).length = (file_size + 1023) / 1024 ∧
    file_size ≤ 1024 * (handle_udp_client file_size).length ∧
    (∀ m : Nat, file_size ≤ 1024 * m → (handle_udp_client file_size).length ≤ m) ∧
    ((handle_udp_client file_size).map (fun p => p.payload_len)).sum = file_size ∧
    (∀ i : Nat, ∀ h : i < (handle_udp_client file_size).length,
      i + 1 < (handle_udp_client file_size).length →
      ((handle_udp_client file_size).get ⟨i, h⟩).payload_len = 1024) ∧
    (∀ _ : 0 < (handle_udp_client file_size).length,
      ((handle_udp_client file_size).getLast?.map (fun p => p.payload_len))
        = some (file_size - ((handle_udp_client file_size).length - 1) * 1024)) ∧
    (file_size = 0 → handle_udp_client file_size = []) := by
  have hlen : (handle_udp_client file_size).length = (file_size + 1023) / 1024 := by
    simp [handle_udp_client]
  refine ⟨hlen, ?_, ?_, ?_, ?_, ?_, ?_⟩
  · rw [hlen]; omega
  · intro m hm; rw [hlen]; omega
  · have := sum_range_min_segments file_size
    simpa [handle_udp_client, List.map_map, Function.comp] using this
  · intro i h hlt
    rw [hlen] at hlt
    simp [handle_udp_client, List.get_eq_getElem]
    omega
  · intro hpos
    rw [hlen] at hpos
    rw [List.getLast?_eq_getElem?]
    rw [List.getElem?_eq_getElem (by omega)]
    simp [handle_udp_client]
    omega
  · intro h0
    subst h0
    rfl

/-- Witness for C3 at `fileSize = 2500` (three segments: 1024, 1024, 452)
and at `fileSize = 0` (no segments). -/
theorem C3_udp_segmentation_witness :
    (handle_udp_client 2500).length = 3 ∧
    ((handle_udp_client 2500).map (fun p => p.payload_len)).sum = 2500 ∧
    (handle_udp_client 2500).length ≤ 3 ∧
    ((handle_udp_client 2500).get ⟨0, by decide⟩).payload_len = 1024 ∧
    ((handle_udp_client 2500).getLast?.map (fun p => p.payload_len)) = some 452 ∧
    handle_udp_client 0 = [] := by
  obtain ⟨h1, _, h3, h4, h5, h6, _⟩ := C3_udp_segmentation 2500
  refine ⟨by simpa using h1, h4, h3 3 (by norm_num), h5 0 (by decide) (by decide), ?_, ?_⟩
  · have h := h6 (by decide)
    simpa using h
  · exact (C3_udp_segmentation 0).2.2.2.2.2.2 rfl

/-- C4: at each of the three decode sites (client offer listener, client
UDP payload receiver, server UDP request receiver), a buffer that is
shorter than the required header length, or whose magic cookie field is
not `0xABCDDCBA`, or whose type byte is not the expected type, decodes to
nothing, and the surrounding loop drops it and goes on to the next
datagram unchanged. -/
theorem C4_malformed_ignored (data : List Nat) :
    ((data.length < 9 ∨ bytesToNat (data.take 4) ≠ MAGIC_COOKIE ∨
        bytesToNat ((data.drop 4).take 1) ≠ OFFER_MSG_TYPE) →
      decodeOffer data = none ∧
      ∀ addr rest, wait_for_offer (OfferEvent.datagram addr data :: rest) =
        wait_for_offer rest) ∧
    ((data.length < 21 ∨ bytesToNat (data.take 4) ≠ MAGIC_COOKIE ∨
        bytesToNat ((data.drop 4).take 1) ≠ PAYLOAD_MSG_TYPE) →
      decodePayload data = none ∧
      ∀ st, processDatagram st data = st) ∧
    ((data.length < 13 ∨ bytesToNat (data.take 4) ≠ MAGIC_COOKIE ∨
        bytesToNat ((data.drop 4).take 1) ≠ REQUEST_MSG_TYPE) →
      decodeRequest data = none ∧
      ∀ rest, handle_udp_requests (data :: rest) = handle_udp_requests rest) := by
  refine ⟨fun h => ?_, fun h => ?_, fun h => ?_⟩
  · have hd : decodeOffer data = none := by
      rcases h with h | h | h
      · have hn : ¬ (9 ≤ data.length) := by omega
        simp [decodeOffer, hn]
      · simp [decodeOffer, h]
      · simp [decodeOffer, h]
    exact ⟨hd, fun addr rest => by simp [wait_for_offer, hd]⟩
  · have hd : decodePayload data = none := by
      rcases h with h | h | h
      · simp [decodePayload, h]
      · simp [decodePayload, h]
      · simp [decodePayload, h]
    exact ⟨hd, fun st => by simp [processDatagram, hd]⟩
  · have hd : decodeRequest data = none := by
      rcases h with h | h | h
      · have hn : ¬ (13 ≤ data.length) := by omega
        simp [decodeRequest, hn]
      · simp [decodeRequest, h]
      · simp [decodeRequest, h]
    exact ⟨hd, fun rest => by simp [handle_udp_requests, List.filterMap_cons, hd]⟩

/-- Witness for C4 on the one-byte buffer `[0xAB]` (too short for every
message kind): all three decoders reject it and all three loops continue
unchanged. -/
theorem C4_malformed_ignored_witness :
    decodeOffer [171] = none ∧
    wait_for_offer [OfferEvent.datagram 5 [171]] = wait_for_offer [] ∧
    decodePayload [171] = none ∧
    processDatagram initUdpState [171] = initUdpState ∧
    decodeRequest [171] = none ∧
    handle_udp_requests [[171]] = handle_udp_requests [] := by
  obtain ⟨h1, h2, h3⟩ := C4_malformed_ignored [171]
  obtain ⟨h1a, h1b⟩ := h1 (Or.inl (by decide))
  obtain ⟨h2a, h2b⟩ := h2 (Or.inl (by decide))
  obtain ⟨h3a, h3b⟩ := h3 (Or.inl (by decide))
  exact ⟨h1a, h1b 5 [], h2a, h2b initUdpState, h3a, h3b []⟩

/-- When the peer delivers only nonempty chunks whose total stays within
the requested size and then closes, the client's receive loop accumulates
exactly the delivered bytes. -/
theorem tcpRecvLoop_eq_sum (file_size : Nat) (stream : List Nat) (acc : Nat)
    (hc : ∀ c ∈ stream, c ≠ 0) (hle : acc + stream.sum ≤ file_size) :
    tcpRecvLoop file_size acc stream = acc + stream.sum := by
  induction stream generalizing acc with
  | nil => simp [tcpRecvLoop]
  | cons c rest ih =>
    have hc0 : c ≠ 0 := hc c (by simp)
    simp only [List.sum_cons] at hle
    have hlt : acc < file_size := by omega
    simp only [tcpRecvLoop, if_pos hlt, if_neg hc0]
    rw [ih (acc + c) (fun x hx => hc x (by simp [hx])) (by omega)]
    simp
    omega

/-- C1 counterexample: the client requests 2048 bytes, the peer delivers a
single 1024-byte chunk and closes, and the transfer takes 1 second.  The
loop exits with `bytes_received = 1024`, but the reported speed is
`2048·8 = 16384` bits per second — `file_size * 8 / duration`
(`Speed_Test_Client.py:156`), not the `1024·8 = 8192` bits per second of
bits actually received that the claim requires. -/
theorem C1_counterexample :
    (tcp_transfer 2048 [1024] 1).1 = 1024 ∧
    (tcp_transfer 2048 [1024] 1).2 = 16384 ∧
    (tcp_transfer 2048 [1024] 1).2 ≠ (((tcp_transfer 2048 [1024] 1).1 : ℚ) * 8) / 1 := by
  refine ⟨rfl, ?_, ?_⟩
  · show ((2048 : ℚ) * 8) / 1 = 16384
    norm_num
  · show ((2048 : ℚ) * 8) / 1 ≠ ((tcpRecvLoop 2048 0 [1024] : ℚ) * 8) / 1
    norm_num [tcpRecvLoop]

/-- C1 amended: for every requested `fileSize`, every prefix of nonempty
chunks delivered before the peer closes, and every positive duration, the
transfer ends without an error with `bytes_received` equal to exactly the
bytes delivered, but the reported throughput is `fileSize * 8 / duration`
— computed from the requested size, not from the bits actually
received. -/
theorem C1_amended (file_size : Nat) (stream : List Nat) (duration : ℚ)
    (hc : ∀ c ∈ stream, c ≠ 0) (hle : stream.sum ≤ file_size) :
    tcp_transfer file_size stream duration
      = (stream.sum, ((file_size : ℚ) * 8) / duration) := by
  unfold tcp_transfer
  rw [tcpRecvLoop_eq_sum file_size stream 0 hc (by omega)]
  simp

/-- Witness for C1 amended: 2048 bytes requested, chunks of 1000 and 24
bytes delivered before close, duration 2 seconds: 1024 bytes received,
reported speed `2048·8/2 = 8192`. -/
theorem C1_amended_witness :
    tcp_transfer 2048 [1000, 24] 2 = (1024, 8192) := by
  rw [C1_amended 2048 [1000, 24] 2 (by decide) (by decide)]
  norm_num

/-- C2 counterexample: a full 10-second receive window expiring with
nothing (a `socket.timeout` event) does not make the listener return a
"no offer" failure — the exception is caught and the loop keeps waiting
(the run is still in progress after the window), unlike the claimed
behavior `wait_for_offer_claimed`; indeed a valid Offer arriving after an
expired window is still returned. -/
theorem C2_counterexample :
    wait_for_offer [OfferEvent.timeout] = none ∧
    wait_for_offer_claimed [OfferEvent.timeout] = some OfferOutcome.noOffer ∧
    wait_for_offer [OfferEvent.timeout,
        OfferEvent.datagram 5 [171, 205, 220, 186, 2, 31, 144, 31, 145]]
      = some (OfferOutcome.offer 5 8080 8081) := by
  refine ⟨rfl, rfl, ?_⟩
  decide

/-- C2 amended: the listener never signals a "no offer" failure: on every
finite trace of timeouts and invalid datagrams it is still waiting
(returns nothing), the 10-second timeout exception being caught and the
loop continued; and the first datagram with correct magic cookie and Offer
type, wherever it occurs, makes it return the sender address and the two
embedded ports immediately. -/
theorem C2_amended (evs : List OfferEvent) :
    ((∀ addr d, OfferEvent.datagram addr d ∈ evs → decodeOffer d = none) →
      wait_for_offer evs = none) ∧
    (∀ pre addr d udp_port tcp_port post,
      evs = pre ++ OfferEvent.datagram addr d :: post →
      (∀ addr' d', OfferEvent.datagram addr' d' ∈ pre → decodeOffer d' = none) →
      decodeOffer d = some (udp_port, tcp_port) →
      wait_for_offer evs = some (OfferOutcome.offer addr udp_port tcp_port)) := by
  constructor
  · intro hinv
    induction evs with
    | nil => rfl
    | cons e rest ih =>
      cases e with
      | timeout =>
        simp only [wait_for_offer]
        exact ih (fun a d h => hinv a d (by simp [h]))
      | datagram addr d =>
        have hd : decodeOffer d = none := hinv addr d (by simp)
        simp only [wait_for_offer, hd]
        exact ih (fun a d' h => hinv a d' (by simp [h]))
  · intro pre addr d udp_port tcp_port post hevs hinv hd
    subst hevs
    induction pre with
    | nil => simp [wait_for_offer, hd]
    | cons e rest ih =>
      cases e with
      | timeout =>
        simp only [List.cons_append, wait_for_offer]
        exact ih (fun a d' h => hinv a d' (by simp [h]))
      | datagram addr' d' =>
        have hd' : decodeOffer d' = none := hinv addr' d' (by simp)
        simp only [List.cons_append, wait_for_offer, hd']
        exact ih (fun a d'' h => hinv a d'' (by simp [h]))

/-- Witness for C2 amended: a trace of one invalid datagram and two
expired windows leaves the listener still waiting; a valid Offer following
an expired window is returned with its ports. -/
theorem C2_amended_witness :
    wait_for_offer [OfferEvent.datagram 9 [7], OfferEvent.timeout, OfferEvent.timeout]
      = none ∧
    wait_for_offer [OfferEvent.timeout,
        OfferEvent.datagram 7 [171, 205, 220, 186, 2, 0, 80, 0, 81]]
      = some (OfferOutcome.offer 7 80 81) := by
  constructor
  · refine (C2_amended _).1 ?_
    intro addr d h
    simp only [List.mem_cons, List.not_mem_nil, or_false] at h
    rcases h with h | h | h
    · obtain ⟨_, rfl⟩ := OfferEvent.datagram.inj h
      decide
    · exact absurd h (by simp)
    · exact absurd h (by simp)
  · refine (C2_amended _).2 [OfferEvent.timeout] 7 _ 80 81 [] rfl ?_ (by decide)
    intro addr' d' h
    simp at h

/-- The server's TCP send loop emits chunks summing to exactly the
remaining byte count. -/
theorem send_chunks_sum (remaining : Nat) : (send_chunks remaining).sum = remaining := by
  induction remaining using Nat.strong_induction_on with
  | _ remaining ih =>
    rw [send_chunks]
    rcases Nat.eq_zero_or_pos remaining with h0 | h0
    · simp [h0]
    · rw [if_neg (by omega)]
      rw [List.sum_cons, ih (remaining - min 1024 remaining) (by omega)]
      omega

/-- Every write of the server's TCP send loop is at most 1024 bytes. -/
theorem send_chunks_le (remaining : Nat) : ∀ c ∈ send_chunks remaining, c ≤ 1024 := by
  induction remaining using Nat.strong_induction_on with
  | _ remaining ih =>
    intro c hc
    rw [send_chunks] at hc
    rcases Nat.eq_zero_or_pos remaining with h0 | h0
    · simp [h0] at hc
    · rw [if_neg (by omega)] at hc
      rcases List.mem_cons.mp hc with h | h
      · omega
      · exact ih (remaining - min 1024 remaining) (by omega) c h

/-- C6: for every received request whose line parses as an integer
`fileSize > 0`, the server's TCP handler sends exactly `fileSize` bytes in
total, in writes of at most 1024 bytes each, and closes the connection;
a parsed `fileSize ≤ 0` is rejected (nothing is sent, and the connection
is still closed). -/
theorem C6_tcp_exact_bytes (data : List Nat) (n : Int)
    (hparse : parsePyInt data = some n) :
    (0 < n →
      (handle_tcp_client data).sent.sum = n.toNat ∧
      (∀ c ∈ (handle_tcp_client data).sent, c ≤ 1024) ∧
      (handle_tcp_client data).closed = true) ∧
    (n ≤ 0 →
      (handle_tcp_client data).sent = [] ∧ (handle_tcp_client data).closed = true) := by
  have hne : data ≠ [] := by
    rintro rfl
    simp [parsePyInt, stripBytes] at hparse
  constructor
  · intro hpos
    have hres : handle_tcp_client data
        = { sent := send_chunks n.toNat, closed := true } := by
      simp [handle_tcp_client, hne, hparse, not_le.mpr hpos]
    rw [hres]
    exact ⟨send_chunks_sum n.toNat, send_chunks_le n.toNat, rfl⟩
  · intro hneg
    have hres : handle_tcp_client data = { sent := [], closed := true } := by
      simp [handle_tcp_client, hne, hparse, hneg]
    rw [hres]
    exact ⟨rfl, rfl⟩

/-- Witness for C6: the request line `b"2048\n"` parses as 2048 and the
handler answers with writes summing to 2048, each at most 1024 bytes,
then closes; the request line `b"-3\n"` parses as −3 and is rejected. -/
theorem C6_tcp_exact_bytes_witness :
    (handle_tcp_client [50, 48, 52, 56, 10]).sent.sum = 2048 ∧
    (∀ c ∈ (handle_tcp_client [50, 48, 52, 56, 10]).sent, c ≤ 1024) ∧
    (handle_tcp_client [50, 48, 52, 56, 10]).closed = true ∧
    (handle_tcp_client [45, 51, 10]).sent = [] := by
  obtain ⟨h1, h2, h3⟩ := (C6_tcp_exact_bytes [50, 48, 52, 56, 10] 2048 (by decide)).1
    (by norm_num)
  refine ⟨by simpa using h1, h2, h3, ?_⟩
  exact ((C6_tcp_exact_bytes [45, 51, 10] (-3) (by decide)).2 (by norm_num)).1

/-- C10: for every accepted TCP connection whose request is invalid — an
empty read, a line that does not parse as a decimal integer, or a parsed
`fileSize ≤ 0` — the server sends zero payload bytes on that connection and
still closes it; and the failure is confined to that connection's handler:
the accept loop handles every other connection exactly as it would have
without it. -/
theorem C10_invalid_request (data : List Nat)
    (h : data = [] ∨ parsePyInt data = none ∨ ∃ n, parsePyInt data = some n ∧ n ≤ 0) :
    (handle_tcp_client data).sent = [] ∧
    (handle_tcp_client data).closed = true ∧
    (∀ pre post, handle_tcp_connections (pre ++ data :: post)
      = handle_tcp_connections pre
          ++ handle_tcp_client data :: handle_tcp_connections post) := by
  have hres : handle_tcp_client data = { sent := [], closed := true } := by
    rcases h with h | h | ⟨n, hn, hneg⟩
    · simp [handle_tcp_client, h]
    · by_cases he : data = []
      · simp [handle_tcp_client, he]
      · simp [handle_tcp_client, he, h]
    · have he : data ≠ [] := by
        rintro rfl
        simp [parsePyInt, stripBytes] at hn
      simp [handle_tcp_client, he, hn, hneg]
  refine ⟨by rw [hres], by rw [hres], ?_⟩
  intro pre post
  simp [handle_tcp_connections]

/-- Witness for C10 on the request `b"hi"`, which does not parse as an
integer: nothing is sent, the socket is closed, and a run of the accept
loop around it handles the neighbouring connections unchanged. -/
theorem C10_invalid_request_witness :
    (handle_tcp_client [104, 105]).sent = [] ∧
    (handle_tcp_client [104, 105]).closed = true ∧
    handle_tcp_connections [[49, 10], [104, 105]]
      = handle_tcp_connections [[49, 10]]
          ++ handle_tcp_client [104, 105] :: handle_tcp_connections [] := by
  obtain ⟨h1, h2, h3⟩ := C10_invalid_request [104, 105] (Or.inr (Or.inl (by decide)))
  exact ⟨h1, h2, h3 [[49, 10]] []⟩

/-- The success-rate formula when no total was ever learned. -/
theorem success_rate_none (st : UdpState) (h : st.total_segments = none) :
    success_rate st = 0 := by
  unfold success_rate
  rw [h]

/-- The success-rate formula once a total has been learned. -/
theorem success_rate_some (st : UdpState) (t : Nat)
    (h : st.total_segments = some t) :
    success_rate st
      = if t = 0 then 0 else (st.segments_received.card : ℚ) / t * 100 := by
  unfold success_rate
  rw [h]

/-- C5 counterexample: two well-formed `PayloadSegment` datagrams whose
first declares `totalSegments = 1` but whose second carries
`segmentNumber = 1 ≥ 1`: the client counts two unique segments against a
learned total of 1 and reports `successRate = 200% > 100%`. -/
theorem C5_counterexample :
    decodePayload [171, 205, 220, 186, 4, 0, 0, 0, 0, 0, 0, 0, 1,
        0, 0, 0, 0, 0, 0, 0, 0, 7, 7] = some (1, 0, [7, 7]) ∧
    decodePayload [171, 205, 220, 186, 4, 0, 0, 0, 0, 0, 0, 0, 1,
        0, 0, 0, 0, 0, 0, 0, 1, 7, 7] = some (1, 1, [7, 7]) ∧
    success_rate (runUdp
        [[171, 205, 220, 186, 4, 0, 0, 0, 0, 0, 0, 0, 1,
          0, 0, 0, 0, 0, 0, 0, 0, 7, 7],
         [171, 205, 220, 186, 4, 0, 0, 0, 0, 0, 0, 0, 1,
          0, 0, 0, 0, 0, 0, 0, 1, 7, 7]]) = 200 := by
  refine ⟨by decide, by decide, ?_⟩
  have htot : (runUdp
      [[171, 205, 220, 186, 4, 0, 0, 0, 0, 0, 0, 0, 1,
        0, 0, 0, 0, 0, 0, 0, 0, 7, 7],
       [171, 205, 220, 186, 4, 0, 0, 0, 0, 0, 0, 0, 1,
        0, 0, 0, 0, 0, 0, 0, 1, 7, 7]]).total_segments = some 1 := by decide
  have hcard : (runUdp
      [[171, 205, 220, 186, 4, 0, 0, 0, 0, 0, 0, 0, 1,
        0, 0, 0, 0, 0, 0, 0, 0, 7, 7],
       [171, 205, 220, 186, 4, 0, 0, 0, 0, 0, 0, 0, 1,
        0, 0, 0, 0, 0, 0, 0, 1, 7, 7]]).segments_received.card = 2 := by decide
  rw [success_rate_some _ 1 htot, if_neg (by decide), hcard]
  norm_num

/-- Processing one datagram preserves the conformance invariant: the
learned total is either unset or `t`, and every recorded sequence number
is below `t`. -/
theorem processDatagram_inv (t : Nat) (st : UdpState) (d : List Nat)
    (hst : st.total_segments = none ∨ st.total_segments = some t)
    (hseg : ∀ s ∈ st.segments_received, s < t)
    (hconf : ∀ total_segs seg_num payload,
      decodePayload d = some (total_segs, seg_num, payload) →
      total_segs = t ∧ seg_num < t) :
    ((processDatagram st d).total_segments = none ∨
      (processDatagram st d).total_segments = some t) ∧
    ∀ s ∈ (processDatagram st d).segments_received, s < t := by
  cases hdec : decodePayload d with
  | none =>
    have hres : processDatagram st d = st := by simp [processDatagram, hdec]
    rw [hres]
    exact ⟨hst, hseg⟩
  | some v =>
    obtain ⟨total_segs, seg_num, payload⟩ := v
    obtain ⟨rfl, hs⟩ := hconf total_segs seg_num payload hdec
    by_cases hnone : st.total_segments = none
    · by_cases hmem : seg_num ∈ st.segments_received
      · have hres : processDatagram st d
            = { st with total_segments := some total_segs } := by
          simp [processDatagram, hdec, hnone, hmem]
        rw [hres]
        exact ⟨Or.inr rfl, hseg⟩
      · have hres : processDatagram st d
            = { st with
                total_segments := some total_segs
                segments_received := insert seg_num st.segments_received
                bytes_received := st.bytes_received + payload.length } := by
          simp [processDatagram, hdec, hnone, hmem]
        rw [hres]
        refine ⟨Or.inr rfl, ?_⟩
        intro s hsmem
        rcases Finset.mem_insert.mp hsmem with rfl | hsmem
        · exact hs
        · exact hseg s hsmem
    · by_cases hmem : seg_num ∈ st.segments_received
      · have hres : processDatagram st d = st := by
          simp [processDatagram, hdec, hnone, hmem]
        rw [hres]
        exact ⟨hst, hseg⟩
      · have hres : processDatagram st d
            = { st with
                segments_received := insert seg_num st.segments_received
                bytes_received := st.bytes_received + payload.length } := by
          simp [processDatagram, hdec, hnone, hmem]
        rw [hres]
        refine ⟨hst, ?_⟩
        intro s hsmem
        rcases Finset.mem_insert.mp hsmem with rfl | hsmem
        · exact hs
        · exact hseg s hsmem

/-- The conformance invariant carries over the whole receive fold. -/
theorem foldl_processDatagram_inv (t : Nat) (datagrams : List (List Nat))
    (st : UdpState)
    (hst : st.total_segments = none ∨ st.total_segments = some t)
    (hseg : ∀ s ∈ st.segments_received, s < t)
    (hconf : ∀ d ∈ datagrams, ∀ total_segs seg_num payload,
      decodePayload d = some (total_segs, seg_num, payload) →
      total_segs = t ∧ seg_num < t) :
    ((datagrams.foldl processDatagram st).total_segments = none ∨
      (datagrams.foldl processDatagram st).total_segments = some t) ∧
    ∀ s ∈ (datagrams.foldl processDatagram st).segments_received, s < t := by
  induction datagrams generalizing st with
  | nil => exact ⟨hst, hseg⟩
  | cons d rest ih =>
    rw [List.foldl_cons]
    obtain ⟨h1, h2⟩ := processDatagram_inv t st d hst hseg
      (fun a b c h => hconf d (by simp) a b c h)
    exact ih (processDatagram st d) h1 h2
      (fun d' hd' a b c h => hconf d' (by simp [hd']) a b c h)

/-- C5 amended: a `segmentNumber` that has already been seen contributes
zero additional bytes (and no new set entry) — for every received
sequence; and `successRate ≤ 100%` holds for every received sequence in
which all valid segments declare the same `totalSegments` and carry
`segmentNumber < totalSegments` (as every server-generated sequence
does).  Without that restriction the rate can exceed 100%, since the
client never checks a segment number against the learned total. -/
theorem C5_amended :
    (∀ (st : UdpState) (data : List Nat) (total_segs seg_num : Nat)
        (payload : List Nat),
      decodePayload data = some (total_segs, seg_num, payload) →
      seg_num ∈ st.segments_received →
      (processDatagram st data).bytes_received = st.bytes_received ∧
      (processDatagram st data).segments_received = st.segments_received) ∧
    (∀ (datagrams : List (List Nat)) (t : Nat),
      (∀ d ∈ datagrams, ∀ total_segs seg_num payload,
        decodePayload d = some (total_segs, seg_num, payload) →
        total_segs = t ∧ seg_num < t) →
      success_rate (runUdp datagrams) ≤ 100) := by
  constructor
  · intro st data total_segs seg_num payload hdec hmem
    by_cases hnone : st.total_segments = none
    · have hres : processDatagram st data
          = { st with total_segments := some total_segs } := by
        simp [processDatagram, hdec, hnone, hmem]
      rw [hres]
      exact ⟨rfl, rfl⟩
    · have hres : processDatagram st data = st := by
        simp [processDatagram, hdec, hnone, hmem]
      rw [hres]
      exact ⟨rfl, rfl⟩
  · intro datagrams t hconf
    obtain ⟨htot, hseg⟩ := foldl_processDatagram_inv t datagrams initUdpState
      (Or.inl rfl) (by intro s hs; simp [initUdpState] at hs) hconf
    rcases htot with h | h
    · rw [success_rate_none (runUdp datagrams) h]
      norm_num
    · rw [success_rate_some (runUdp datagrams) t h]
      by_cases ht0 : t = 0
      · simp [ht0]
      · rw [if_neg ht0]
        have hpos : (0 : ℚ) < t := by
          exact_mod_cast Nat.pos_of_ne_zero ht0
        have hcard : (runUdp datagrams).segments_received.card ≤ t := by
          have hsub : (runUdp datagrams).segments_received ⊆ Finset.range t :=
            fun s hsx => Finset.mem_range.mpr (hseg s hsx)
          simpa using Finset.card_le_card hsub
        have h1 : ((runUdp datagrams).segments_received.card : ℚ) / t ≤ 1 := by
          rw [div_le_one hpos]
          exact_mod_cast hcard
        calc ((runUdp datagrams).segments_received.card : ℚ) / t * 100
            ≤ 1 * 100 := by
              exact mul_le_mul_of_nonneg_right h1 (by norm_num)
          _ = 100 := by norm_num

/-- Witness for C5 amended: a duplicate of the already-seen segment 0
leaves the byte count at 2; a conformant two-segment sequence (both
declaring `totalSegments = 2`) yields a rate of at most 100%. -/
theorem C5_amended_witness :
    (processDatagram ⟨2, {0}, some 1⟩
        [171, 205, 220, 186, 4, 0, 0, 0, 0, 0, 0, 0, 1,
         0, 0, 0, 0, 0, 0, 0, 0, 7, 7]).bytes_received = 2 ∧
    success_rate (runUdp
        [[171, 205, 220, 186, 4, 0, 0, 0, 0, 0, 0, 0, 2,
          0, 0, 0, 0, 0, 0, 0, 0, 7, 7],
         [171, 205, 220, 186, 4, 0, 0, 0, 0, 0, 0, 0, 2,
          0, 0, 0, 0, 0, 0, 0, 1, 7, 7]]) ≤ 100 := by
  constructor
  · exact (C5_amended.1 ⟨2, {0}, some 1⟩ _ 1 0 [7, 7] (by decide) (by decide)).1
  · apply C5_amended.2 _ 2
    have h0 : decodePayload [171, 205, 220, 186, 4, 0, 0, 0, 0, 0, 0, 0, 2,
        0, 0, 0, 0, 0, 0, 0, 0, 7, 7] = some (2, 0, [7, 7]) := by decide
    have h1 : decodePayload [171, 205, 220, 186, 4, 0, 0, 0, 0, 0, 0, 0, 2,
        0, 0, 0, 0, 0, 0, 0, 1, 7, 7] = some (2, 1, [7, 7]) := by decide
    intro d hd total_segs seg_num payload hdec
    rcases List.mem_cons.mp hd with rfl | hd'
    · rw [h0] at hdec
      simp only [Option.some.injEq, Prod.mk.injEq] at hdec
      obtain ⟨rfl, rfl, rfl⟩ := hdec
      exact ⟨rfl, by norm_num⟩
    · rcases List.mem_cons.mp hd' with rfl | hd''
      · rw [h1] at hdec
        simp only [Option.some.injEq, Prod.mk.injEq] at hdec
        obtain ⟨rfl, rfl, rfl⟩ := hdec
        exact ⟨rfl, by norm_num⟩
      · exact absurd hd'' (by simp)

/-- Folding list append over singletons reproduces the list. -/
theorem foldl_append_singleton {α : Type} (l acc : List α) :
    l.foldl (fun acc t => acc ++ [t]) acc = acc ++ l := by
  induction l generalizing acc with
  | nil => simp
  | cons x xs ih => simp [ih]

/-- C7: for every configuration, the orchestrator starts exactly
`tcpCount` TCP transfer threads indexed `1..tcpCount` and exactly
`udpCount` UDP transfer threads indexed `1..udpCount` —
`tcpCount + udpCount` threads in all — and the join loop waits on exactly
the started threads, each join being unconditional on the task's
outcome. -/
theorem C7_orchestration (tcp_count udp_count : Nat) :
    (run_speed_test_threads tcp_count udp_count).length = tcp_count + udp_count ∧
    ((run_speed_test_threads tcp_count udp_count).filter
        (fun t => t.kind = TaskKind.tcp)).map (fun t => t.index)
      = (List.range tcp_count).map (fun i => i + 1) ∧
    ((run_speed_test_threads tcp_count udp_count).filter
        (fun t => t.kind = TaskKind.udp)).map (fun t => t.index)
      = (List.range udp_count).map (fun i => i + 1) ∧
    run_speed_test_joined tcp_count udp_count
      = run_speed_test_threads tcp_count udp_count := by
  refine ⟨by simp [run_speed_test_threads], ?_, ?_, ?_⟩
  · simp [run_speed_test_threads, List.filter_append, List.filter_map,
      Function.comp_def]
  · simp [run_speed_test_threads, List.filter_append, List.filter_map,
      Function.comp_def]
  · unfold run_speed_test_joined
    rw [foldl_append_singleton]
    simp

/-- Run of the UDP receive loop from any state whose clock and
last-packet time coincide: datagrams arriving within their 1-second
receive window are all consumed and processed (each resets the deadline,
whatever its content), and the first receive window that elapses with no
datagram — strictly more than 1 second of silence, as a raised
`socket.timeout` takes — makes the next top-of-loop check break, leaving
every later outcome unreached. -/
theorem udpLoop_run (pre : List RecvOutcome) (e : ℚ) (post : List RecvOutcome)
    (s : UdpLoopState) (hs : s.now = s.last_packet_time)
    (hpre : ∀ o ∈ pre, ∃ delay data,
      o = RecvOutcome.got delay data ∧ 0 ≤ delay ∧ delay ≤ 1)
    (he : 1 < e) :
    udpLoop s (pre ++ RecvOutcome.timedOut e :: post)
      = (⟨s.now + gotDelays pre + e, s.now + gotDelays pre,
          (gotDatas pre).foldl processDatagram s.st⟩, post) := by
  induction pre generalizing s with
  | nil =>
    have hc1 : ¬ (s.now - s.last_packet_time > 1) := by
      rw [hs]
      simp
    cases post with
    | nil =>
      simp only [List.nil_append, udpLoop, hc1, if_false, reduceIte,
        gotDelays, gotDatas, List.foldl_nil]
      rw [hs]
      simp
    | cons o rest =>
      have hc2 : s.now + e - s.last_packet_time > 1 := by
        rw [hs]
        linarith
      simp only [List.nil_append, udpLoop, hc1, hc2, if_false, if_true,
        reduceIte, gotDelays, gotDatas, List.foldl_nil]
      rw [hs]
      simp
  | cons o pre' ih =>
    obtain ⟨delay, data, rfl, hd0, hd1⟩ := hpre o (by simp)
    have hc1 : ¬ (s.now - s.last_packet_time > 1) := by
      rw [hs]
      simp
    simp only [List.cons_append, udpLoop, hc1, if_false, reduceIte,
      List.append_eq]
    rw [ih ⟨s.now + delay, s.now + delay, processDatagram s.st data⟩ rfl
      (fun o' ho' => hpre o' (by simp [ho']))]
    simp only [gotDelays, gotDatas, List.foldl_cons, Prod.mk.injEq,
      UdpLoopState.mk.injEq, and_true, true_and]
    exact ⟨by ring, by ring⟩

/-- C8: for every UDP transfer trace in which each received datagram
(valid, malformed or duplicate alike) arrives within its 1-second receive
window, followed by the first silent window (strictly longer than 1
second, as a raised `socket.timeout` is), the receive loop consumes
exactly the datagrams before the gap — each arrival resets the inactivity
deadline and no datagram ends the loop — and terminates at that gap,
leaving every later outcome unreached, with the transfer state being the
fold over exactly the received datagrams. -/
theorem C8_inactivity_termination (pre : List RecvOutcome) (e : ℚ)
    (post : List RecvOutcome)
    (hpre : ∀ o ∈ pre, ∃ delay data,
      o = RecvOutcome.got delay data ∧ 0 ≤ delay ∧ delay ≤ 1)
    (he : 1 < e) :
    udpLoop initUdpLoopState (pre ++ RecvOutcome.timedOut e :: post)
      = (⟨gotDelays pre + e, gotDelays pre, runUdp (gotDatas pre)⟩, post) := by
  rw [udpLoop_run pre e post initUdpLoopState rfl hpre he]
  simp [initUdpLoopState, runUdp]

/-- Witness for C8: one empty datagram arriving after half a second, then
a 2-second silence: the loop processes the datagram, terminates at the
gap, and never reaches the outcome queued after it. -/
theorem C8_inactivity_termination_witness :
    udpLoop initUdpLoopState
        [RecvOutcome.got (1/2) [], RecvOutcome.timedOut 2, RecvOutcome.timedOut 5]
      = (⟨1/2 + 2, 1/2, runUdp [[]]⟩, [RecvOutcome.timedOut 5]) := by
  have h := C8_inactivity_termination [RecvOutcome.got (1/2) []] 2
    [RecvOutcome.timedOut 5] ?_ (by norm_num)
  · simpa [gotDelays, gotDatas] using h
  · intro o ho
    simp only [List.mem_singleton] at ho
    exact ⟨1/2, [], ho, by norm_num, by norm_num⟩

/-- The receive fold ignores a run of datagrams none of which decodes as
a payload segment. -/
theorem foldl_processDatagram_invalid (datagrams : List (List Nat))
    (st : UdpState) (h : ∀ d ∈ datagrams, decodePayload d = none) :
    datagrams.foldl processDatagram st = st := by
  induction datagrams with
  | nil => rfl
  | cons d rest ih =>
    rw [List.foldl_cons]
    have hd : processDatagram st d = st := by
      simp [processDatagram, h d (by simp)]
    rw [hd]
    exact ih (fun d' hd' => h d' (by simp [hd']))

/-- C9: the client's success-rate computation never divides by zero: when
no datagram of the transfer decodes as a valid segment, `totalSegments`
is never learned and the rate is reported as 0; and whenever the learned
total is 0 (or was never learned), the truthiness guard skips the
division and reports 0. -/
theorem C9_success_rate_zero (datagrams : List (List Nat)) :
    ((∀ d ∈ datagrams, decodePayload d = none) →
      (runUdp datagrams).total_segments = none ∧
      success_rate (runUdp datagrams) = 0) ∧
    ((runUdp datagrams).total_segments = some 0 →
      success_rate (runUdp datagrams) = 0) ∧
    ((runUdp datagrams).total_segments = none →
      success_rate (runUdp datagrams) = 0) := by
  refine ⟨fun h => ?_, fun h => ?_, fun h => ?_⟩
  · have hrun : runUdp datagrams = initUdpState :=
      foldl_processDatagram_invalid datagrams initUdpState h
    rw [hrun]
    exact ⟨rfl, success_rate_none initUdpState rfl⟩
  · rw [success_rate_some _ 0 h]
    simp
  · exact success_rate_none _ h

/-- Witness for C9: a transfer fed only the junk datagram `[0xAB]` never
learns a total and reports rate 0; a transfer whose only valid segment
declares `totalSegments = 0` reports rate 0 as well. -/
theorem C9_success_rate_zero_witness :
    (runUdp [[171]]).total_segments = none ∧
    success_rate (runUdp [[171]]) = 0 ∧
    success_rate (runUdp [[171, 205, 220, 186, 4, 0, 0, 0, 0, 0, 0, 0, 0,
      0, 0, 0, 0, 0, 0, 0, 0]]) = 0 := by
  have hinv : ∀ d ∈ [[171]], decodePayload d = none := by
    intro d hd
    simp only [List.mem_singleton] at hd
    subst hd
    decide
  obtain ⟨h1, h2⟩ := (C9_success_rate_zero [[171]]).1 hinv
  exact ⟨h1, h2, (C9_success_rate_zero _).2.1 (by decide)⟩

end SpeedTest
